import Mathlib

/-
  Verification development for the ORACE extraction engine
  (services/oraceCSVService.js and services/oraceService.js).

  The JavaScript sources are shallowly embedded: grids of raw CSV cells
  become `List (List String)`, spreadsheet sheets become a cell function
  together with a list of merge descriptors, JavaScript numbers become `ℚ`,
  and JavaScript `null`/`undefined` becomes `Option`.  Every definition
  below mirrors one function of the source, keeping its name.
-/

namespace AnalyseEval

/-! ### JavaScript string primitives

`jsTrim`, `jsLower`, `jsIncludes` and `replaceFirst` model the JavaScript
methods `trim`, `toLowerCase`, `includes` and `replace` (with a string
pattern, which replaces only the first occurrence).  `jsLower` is exact on
ASCII; the accented keyword letters occurring in the sources are already
lower case, so the restriction is immaterial for the embedded code. -/

def jsTrim (s : String) : String :=
  ⟨((s.data.dropWhile Char.isWhitespace).reverse.dropWhile Char.isWhitespace).reverse⟩

def jsLower (s : String) : String :=
  ⟨s.data.map Char.toLower⟩

def containsSub : List Char → List Char → Bool
  | [], pat => pat.isEmpty
  | c :: t, pat => pat.isPrefixOf (c :: t) || containsSub t pat

def jsIncludes (s pat : String) : Bool :=
  containsSub s.data pat.data

def replaceFirstAux (pat rep : List Char) : List Char → List Char
  | [] => []
  | c :: t =>
    if pat.isPrefixOf (c :: t) then rep ++ (c :: t).drop pat.length
    else c :: replaceFirstAux pat rep t

def replaceFirst (s pat rep : String) : String :=
  ⟨replaceFirstAux pat.data rep.data s.data⟩

/-! ### NumericNormalizer (`parsePourcentage`, both services)

`parseFloatQ` models JavaScript `parseFloat` on the decimal fragment:
optional leading whitespace, optional sign, an integer part and an optional
fractional part, reading the longest such prefix and ignoring everything
after it; no digit at all gives `NaN`, modelled as `none`.  (The exponent
form and the `Infinity` literal, which never occur in this data, are not
modelled.)  The value is produced directly with `mkRat`. -/

def digitsToNat (ds : List Char) : ℕ :=
  ds.foldl (fun a c => a * 10 + (c.toNat - 48)) 0

def parseFloatQ (s : String) : Option ℚ :=
  let cs := s.data.dropWhile Char.isWhitespace
  let sgn : ℤ := match cs with
    | '-' :: _ => -1
    | _ => 1
  let cs1 := match cs with
    | '-' :: t => t
    | '+' :: t => t
    | _ => cs
  let ip := cs1.takeWhile Char.isDigit
  let rest := cs1.dropWhile Char.isDigit
  let fp := match rest with
    | '.' :: t => t.takeWhile Char.isDigit
    | _ => []
  if ip.isEmpty && fp.isEmpty then none
  else
    some (mkRat (sgn * (digitsToNat ip * 10 ^ fp.length + digitsToNat fp : ℕ)) (10 ^ fp.length))

/-- `parsePourcentage` of both services (the two copies are identical):
`null`/`undefined`/`""` give `null`; otherwise trim, drop a `%`, turn the
decimal comma into a point, `parseFloat`; `NaN` gives `null`; a value
strictly between 0 and 1 is scaled by 100. -/
def parsePourcentage (valeur : Option String) : Option ℚ :=
  match valeur with
  | none => none
  | some v =>
    if v = "" then none
    else
      let s1 := jsTrim v
      let s2 := jsTrim (replaceFirst s1 "%" "")
      let s3 := replaceFirst s2 "," "."
      match parseFloatQ s3 with
      | none => none
      | some q => if 0 < q ∧ q < 1 then some (q * 100) else some q

/-! ### Competency-name normalization and keys -/

/-- The whitespace-run collapsing of `replace(/\s+/g, "_")`: every maximal
run of whitespace becomes a single underscore.  The boolean records whether
the previous character belonged to a run. -/
def collapseWs : Bool → List Char → List Char
  | _, [] => []
  | inWs, c :: t =>
    if c.isWhitespace then
      if inWs then collapseWs true t else '_' :: collapseWs true t
    else c :: collapseWs false t

def accentFold (c : Char) : Char :=
  if c = 'é' ∨ c = 'è' ∨ c = 'ê' then 'e'
  else if c = 'à' ∨ c = 'â' then 'a'
  else if c = 'î' ∨ c = 'ï' then 'i'
  else if c = 'ô' ∨ c = 'ö' then 'o'
  else if c = 'ù' ∨ c = 'û' then 'u'
  else if c = 'ç' then 'c'
  else c

/-- `normaliserNomCompetence` (identical in both services): trim, collapse
whitespace to underscores, drop parentheses, fold accents, drop apostrophes
(`Char.ofNat 39`), truncate to 100 characters. -/
def normaliserNomCompetence (nom : String) : String :=
  let l0 := (jsTrim nom).data
  let l1 := collapseWs false l0
  let l2 := l1.filter (fun c => !(c = '(' || c = ')'))
  let l3 := l2.map accentFold
  let l4 := l3.filter (fun c => !(c = Char.ofNat 39))
  ⟨l4.take 100⟩

/-- The competency key `niveau_matiere_nomNormalise` built by both services. -/
def cle (niveau matiere nomNorm : String) : String :=
  niveau ++ "_" ++ matiere ++ "_" ++ nomNorm

/-! ### JavaScript object model

A JavaScript object used as a map is a list of key/value pairs in insertion
order; assigning to an existing key updates the value in place, assigning a
fresh key appends.  `objAssign` is `Object.assign(t, s)`. -/

def objInsert (m : List (String × ℚ)) (k : String) (v : ℚ) : List (String × ℚ) :=
  if m.any (fun p => p.1 == k) then m.map (fun p => if p.1 == k then (p.1, v) else p)
  else m ++ [(k, v)]

def objAssign (t s : List (String × ℚ)) : List (String × ℚ) :=
  s.foldl (fun m p => objInsert m p.1 p.2) t

/-! ### Data model of the extraction results -/

/-- A competency resolved by the CSV service: the raw title and the column
holding the satisfactory-group percentage (`{nom, colonne}`). -/
structure Competence where
  nom : String
  colonne : ℕ
deriving DecidableEq

/-- A school record (`{uai, nom, resultats}`). -/
structure Ecole where
  uai : String
  nom : String
  resultats : List (String × ℚ)
deriving DecidableEq

/-! ### OraceCSVService: structure detection -/

/-- The competency test of `extraireCompetences` (and, identically, of
`analyserStructureAvecFusions`): at least 10 characters and none of the
structural marker words. -/
def estCompetence (texte : String) : Bool :=
  decide (10 ≤ texte.length) &&
  !(jsIncludes (jsLower texte) "compétence") &&
  !(jsIncludes (jsLower texte) "exercice") &&
  !(jsIncludes (jsLower texte) "participation") &&
  !(jsIncludes (jsLower texte) "scores")

/-- `validerIdentification`: some cell of row 1 contains
`"evaluation " + niveau.toLowerCase() + matiereCode` (case-insensitively). -/
def validerIdentification (ligne1 : List String) (niveau matiere : String) : Bool :=
  if ligne1.isEmpty then false
  else
    let matiereCode := if matiere == "francais" then "fr" else "ma"
    let patternAttendu := "evaluation " ++ jsLower niveau ++ matiereCode
    ligne1.any (fun cellule =>
      cellule != "" && jsIncludes (jsTrim (jsLower cellule)) patternAttendu)

def contientSatisfaisant (ligne : List String) : Bool :=
  ligne.any (fun cellule =>
    cellule != "" && jsIncludes (jsTrim (jsLower cellule)) "satisfaisant")

/-- `trouverLigneGroupes`: first row index in `[2, min 10 len)` whose row
contains "satisfaisant". -/
def trouverLigneGroupes (lignes : List (List String)) : Option ℕ :=
  (List.range' 2 (min 10 lignes.length - 2)).find?
    (fun i => contientSatisfaisant (lignes.getD i []))

def contientPourcentage (ligne : List String) : Bool :=
  ligne.any (fun cellule =>
    cellule != "" &&
      (jsIncludes (jsTrim (jsLower cellule)) "%" ||
       jsIncludes (jsTrim (jsLower cellule)) "répondants" ||
       jsIncludes (jsTrim (jsLower cellule)) "repondants"))

/-- `trouverLignePourcentages`: first of the 3 rows after the group row
containing "%" or a respondents keyword. -/
def trouverLignePourcentages (lignes : List (List String)) (ligneGroupes : ℕ) : Option ℕ :=
  (List.range' (ligneGroupes + 1) (min (ligneGroupes + 4) lignes.length - (ligneGroupes + 1))).find?
    (fun i => contientPourcentage (lignes.getD i []))

/-- The row filter of `trouverPremiereEcole`: column 0 is a plausible UAI
(non-empty, length ≥ 7, none of the header/summary keywords) and column 1 is
non-empty. -/
def estLigneEcole (ligne : List String) : Bool :=
  let uai := jsTrim (ligne.getD 0 "")
  let nom := jsTrim (ligne.getD 1 "")
  uai != "" && nom != "" &&
  !(jsIncludes (jsLower uai) "uai") &&
  !(jsIncludes (jsLower uai) "total") &&
  !(jsIncludes (jsLower uai) "circonscription") &&
  decide (7 ≤ uai.length)

/-- `trouverPremiereEcole`: first qualifying row after the percentage row,
defaulting to index 10. -/
def trouverPremiereEcole (lignes : List (List String)) (lignePourcentages : ℕ) : ℕ :=
  match (List.range' (lignePourcentages + 1) (lignes.length - (lignePourcentages + 1))).find?
      (fun i => estLigneEcole (lignes.getD i [])) with
  | some i => i
  | none => 10

/-! ### OraceCSVService: competency-span resolution -/

/-- Step 1 of `finaliserCompetence`: scan `[colDebut, colFin]` of the group
row for "satisfaisant". -/
def chercheSatisfaisant (ligneGroupes : List String) (colDebut colFin : ℕ) : Option ℕ :=
  (List.range' colDebut (colFin + 1 - colDebut)).find?
    (fun col => jsIncludes (jsTrim (jsLower (ligneGroupes.getD col ""))) "satisfaisant")

/-- Step 2 of `finaliserCompetence`: scan `[colSat, min (colSat+3) colFin]`
of the percentage row for "%" or a respondents keyword. -/
def cherchePourcentage (lignePourcentages : List String) (colSat colFin : ℕ) : Option ℕ :=
  (List.range' colSat (min (colSat + 3) colFin + 1 - colSat)).find?
    (fun col =>
      jsIncludes (jsTrim (jsLower (lignePourcentages.getD col ""))) "%" ||
      jsIncludes (jsTrim (jsLower (lignePourcentages.getD col ""))) "répondants" ||
      jsIncludes (jsTrim (jsLower (lignePourcentages.getD col ""))) "repondants")

/-- `finaliserCompetence`: no "satisfaisant" in the span drops the
competency; a found percentage column is used; otherwise the column directly
after the "satisfaisant" column is the default. -/
def finaliserCompetence (nomCompetence : String) (colDebut colFin : ℕ)
    (ligneGroupes lignePourcentages : List String) : Option Competence :=
  match chercheSatisfaisant ligneGroupes colDebut colFin with
  | none => none
  | some colSat =>
    match cherchePourcentage lignePourcentages colSat colFin with
    | some colPct => some ⟨nomCompetence, colPct⟩
    | none => some ⟨nomCompetence, colSat + 1⟩

/-- `extraireCompetences`: scan the title row left to right; each qualifying
cell opens a span reaching to the cell before the next qualifying cell (the
last one reaches the end of the row); each closed span is finalised. -/
def extraireCompetences (ligne3 ligneGroupes lignePourcentages : List String) :
    List Competence :=
  let fin := ligne3.enum.foldl
    (fun st p =>
      let texte := jsTrim p.2
      if 0 < texte.length then
        if estCompetence texte then
          match st.2 with
          | some nc =>
            (st.1 ++ (finaliserCompetence nc.1 nc.2 (p.1 - 1) ligneGroupes lignePourcentages).toList,
             some (texte, p.1))
          | none => (st.1, some (texte, p.1))
        else st
      else st)
    (([] : List Competence), (none : Option (String × ℕ)))
  match fin.2 with
  | some nc =>
    fin.1 ++ (finaliserCompetence nc.1 nc.2 (ligne3.length - 1) ligneGroupes lignePourcentages).toList
  | none => fin.1

/-! ### OraceCSVService: school extraction and registry merge -/

/-- The body of the `forEach` of `extraireEcoles` for one row: `none` when
the row is filtered out or yields no parsed value at all. -/
def ligneVersEcole (ligne : List String) (competences : List Competence)
    (niveau matiere : String) : Option Ecole :=
  let uai := jsTrim (ligne.getD 0 "")
  let nom := jsTrim (ligne.getD 1 "")
  if uai == "" || jsIncludes (jsLower uai) "total" ||
      jsIncludes (jsLower uai) "circonscription" then none
  else
    let resultats := competences.foldl
      (fun resultats comp =>
        match parsePourcentage (ligne.get? comp.colonne) with
        | some pct =>
          objInsert resultats (cle niveau matiere (normaliserNomCompetence comp.nom)) pct
        | none => resultats) []
    if resultats.isEmpty then none else some ⟨uai, nom, resultats⟩

def extraireEcoles (lignesEcoles : List (List String)) (competences : List Competence)
    (niveau matiere : String) : List Ecole :=
  lignesEcoles.filterMap (fun ligne => ligneVersEcole ligne competences niveau matiere)

/-- `chargerFichierCSV`, the pure part: from the parsed grid of one CSV file
to the list of partial school records of that source unit.  Each failed
detection step rejects the whole unit (empty result). -/
def chargerFichierCSV (lignes : List (List String)) (niveau matiere : String) : List Ecole :=
  if validerIdentification (lignes.getD 0 []) niveau matiere then
    match trouverLigneGroupes lignes with
    | none => []
    | some ligneGroupes =>
      match trouverLignePourcentages lignes ligneGroupes with
      | none => []
      | some lignePourcentages =>
        let competences := extraireCompetences (lignes.getD 2 [])
          (lignes.getD ligneGroupes []) (lignes.getD lignePourcentages [])
        if competences.isEmpty then []
        else
          extraireEcoles (lignes.drop (trouverPremiereEcole lignes lignePourcentages))
            competences niveau matiere
  else []

/-- The merge of one partial record into the registry (`loadEcoles` of the
CSV service): a fresh id is inserted with an empty result object, then the
unit results are `Object.assign`ed into the stored record. -/
def fusionnerEcole (ecolesMap : List Ecole) (ecole : Ecole) : List Ecole :=
  let avecEntree :=
    if ecolesMap.any (fun x => x.uai == ecole.uai) then ecolesMap
    else ecolesMap ++ [⟨ecole.uai, ecole.nom, []⟩]
  avecEntree.map (fun x =>
    if x.uai == ecole.uai then ⟨x.uai, x.nom, objAssign x.resultats ecole.resultats⟩ else x)

/-- Merging all records of one source unit into the registry. -/
def fusionnerFichier (ecolesMap : List Ecole) (resultatsFichier : List Ecole) : List Ecole :=
  resultatsFichier.foldl fusionnerEcole ecolesMap

/-- `loadEcoles` of the CSV service over a list of already-read units
(grid, level, subject). -/
def loadEcolesCSV (fichiers : List (List (List String) × String × String)) : List Ecole :=
  fichiers.foldl
    (fun ecolesMap f => fusionnerFichier ecolesMap (chargerFichierCSV f.1 f.2.1 f.2.2)) []

/-! ### OraceService (workbook mode): merge-aware span resolution

A sheet is a cell function (row, column → content, `""` for an absent cell)
together with its merge descriptors. -/

structure Fusion where
  sr : ℕ
  sc : ℕ
  er : ℕ
  ec : ℕ
deriving DecidableEq

structure SheetM where
  cell : ℕ → ℕ → String
  merges : List Fusion

structure Span where
  nom : String
  colDebut : ℕ
  colFin : ℕ
deriving DecidableEq

/-- A competency of the workbook service: `colonneDebut` already points at
the percentage column (`{nom, colonneDebut}`). -/
structure CompetenceODS where
  nom : String
  colonneDebut : ℕ
deriving DecidableEq

/-- Stable insertion into a list sorted by `sc` (the JavaScript
`sort((a, b) => a.s.c - b.s.c)` is stable). -/
def insereFusion (f : Fusion) : List Fusion → List Fusion
  | [] => [f]
  | g :: t => if f.sc ≤ g.sc then f :: g :: t else g :: insereFusion f t

def trieFusions : List Fusion → List Fusion
  | [] => []
  | f :: t => insereFusion f (trieFusions t)

/-- The horizontal merges anchored on the title row (row index 2), sorted by
start column. -/
def fusionsLigne3 (sh : SheetM) : List Fusion :=
  trieFusions (sh.merges.filter (fun m => m.sr == 2 && m.sc != m.ec))

/-- The accepted competency spans of `analyserStructureAvecFusions`: the
anchor cell text must pass `estCompetence`. -/
def spansLigne3 (sh : SheetM) : List Span :=
  (fusionsLigne3 sh).filterMap (fun f =>
    let texte := jsTrim (sh.cell 2 f.sc)
    if estCompetence texte then some ⟨texte, f.sc, f.ec⟩ else none)

/-- The offset search of `analyserStructureAvecFusions` (step 3): scan the
columns of the span, and rows 4-6 (indices 3-5) of each column; a cell of
more than 2 characters containing a "satis" keyword resolves to the next
column when it mentions "nombre", and to its own column when it mentions
"%" or "sur le nombre"; otherwise the scan goes on. -/
def chercheOffsetPourcentage (sh : SheetM) (sp : Span) : Option ℕ :=
  (List.range' sp.colDebut (sp.colFin + 1 - sp.colDebut)).findSome? (fun col =>
    (List.range' 3 3).findSome? (fun row =>
      let valeur := jsTrim (jsLower (sh.cell row col))
      if valeur != "" && decide (2 < valeur.length) &&
          (jsIncludes valeur "satisfaisant" || jsIncludes valeur "satisf" ||
           jsIncludes valeur "satis") then
        if jsIncludes valeur "nombre" then some (col + 1 - sp.colDebut)
        else if jsIncludes valeur "%" || jsIncludes valeur "sur le nombre" then
          some (col - sp.colDebut)
        else none
      else none))

/-- The resolved percentage column of one span: the found offset, or the
heuristic `largeur - 1` (last column of the merge) when the search failed. -/
def resoudreSpan (sh : SheetM) (sp : Span) : ℕ :=
  match chercheOffsetPourcentage sh sp with
  | some off => sp.colDebut + off
  | none => sp.colDebut + (sp.colFin + 1 - sp.colDebut - 1)

/-- The competency list produced by `analyserStructureAvecFusions` when the
sheet does carry merges (`{nom, colonneDebut: colonnePourcentage}`). -/
def analyserStructureAvecFusions (sh : SheetM) : List CompetenceODS :=
  (spansLigne3 sh).map (fun sp => ⟨sp.nom, resoudreSpan sh sp⟩)

/-! ### OraceService: row processing and registry -/

/-- `extraireResultats`: one result object for one data row. -/
def extraireResultats (row : List String) (competences : List CompetenceODS)
    (niveau matiere : String) : List (String × ℚ) :=
  competences.foldl
    (fun resultats comp =>
      match parsePourcentage (row.get? comp.colonneDebut) with
      | some pct =>
        objInsert resultats (cle niveau matiere (normaliserNomCompetence comp.nom)) pct
      | none => resultats) []

/-- The body of the per-row `forEach` of `loadEcoles` of the workbook
service: rows failing the identifier filter are skipped; otherwise a record
is created for a fresh id before the results are extracted, and the results
are `Object.assign`ed into the stored record. -/
def processRowODS (ecolesMap : List Ecole) (row : List String)
    (competences : List CompetenceODS) (niveau matiere : String) : List Ecole :=
  let uai := jsTrim (row.getD 0 "")
  let nom := jsTrim (row.getD 1 "")
  if uai == "" || jsIncludes (jsLower uai) "total" ||
      jsIncludes (jsLower uai) "circonscription" then ecolesMap
  else
    let avecEntree :=
      if ecolesMap.any (fun x => x.uai == uai) then ecolesMap
      else ecolesMap ++ [⟨uai, nom, []⟩]
    let resultats := extraireResultats row competences niveau matiere
    avecEntree.map (fun x =>
      if x.uai == uai then ⟨x.uai, x.nom, objAssign x.resultats resultats⟩ else x)

/-! ### Concrete fixture: the 12-row end-to-end grid of the specification -/

def grilleC1 : List (List String) :=
  [["Evaluation CM2FR"],
   [],
   ["", "", "Lecture de mots (10 points)", "", "", ""],
   [], [], [],
   ["", "", "", "", "Groupe satisfaisant", ""],
   ["", "", "", "", "", "%"],
   [], [], [],
   ["0070116N", "Ecole Test", "12", "3", "5,5", "62,5"]]

/-! ### Helper lemmas: searches over column/row ranges -/

theorem find?_range'_some {p : ℕ → Bool} :
    ∀ {n lo i : ℕ}, (List.range' lo n).find? p = some i →
      lo ≤ i ∧ i < lo + n ∧ p i = true ∧ ∀ j, lo ≤ j → j < i → p j = false := by
  intro n
  induction n with
  | zero => intro lo i h; simp [List.range'] at h
  | succ n ih =>
    intro lo i h
    rw [List.range'_succ, List.find?_cons] at h
    cases hp : p lo with
    | true =>
      rw [hp] at h
      simp only [Option.some.injEq] at h
      subst h
      exact ⟨Nat.le_refl _, by omega, hp, fun j hj1 hj2 => by omega⟩
    | false =>
      rw [hp] at h
      obtain ⟨h1, h2, h3, h4⟩ := ih h
      refine ⟨by omega, by omega, h3, fun j hj1 hj2 => ?_⟩
      rcases Nat.eq_or_lt_of_le hj1 with he | hl
      · exact he ▸ hp
      · exact h4 j hl hj2

theorem find?_range'_none {p : ℕ → Bool} {n lo : ℕ}
    (h : ∀ j, lo ≤ j → j < lo + n → p j = false) :
    (List.range' lo n).find? p = none := by
  rw [List.find?_eq_none]
  intro x hx
  rw [List.mem_range'_1] at hx
  simp [h x hx.1 hx.2]

theorem find?_range'_least {p : ℕ → Bool} :
    ∀ {n lo i : ℕ}, lo ≤ i → i < lo + n → p i = true →
      (∀ j, lo ≤ j → j < i → p j = false) → (List.range' lo n).find? p = some i := by
  intro n
  induction n with
  | zero => intro lo i h1 h2; omega
  | succ n ih =>
    intro lo i h1 h2 h3 h4
    rw [List.range'_succ, List.find?_cons]
    rcases Nat.eq_or_lt_of_le h1 with he | hl
    · rw [← he] at h3; rw [h3, he]
    · rw [h4 lo (Nat.le_refl _) hl]
      exact ih hl (by omega) h3 (fun j hj1 hj2 => h4 j (by omega) hj2)

/-! ### Helper lemmas: the JavaScript object model -/

theorem lookup_eq_some_mem {k : String} {v : ℚ} :
    ∀ {m : List (String × ℚ)}, List.lookup k m = some v → (k, v) ∈ m := by
  intro m
  induction m with
  | nil => intro h; simp [List.lookup] at h
  | cons p t ih =>
    obtain ⟨a, b⟩ := p
    intro h
    rw [List.lookup_cons] at h
    cases hk : k == a with
    | true =>
      rw [hk] at h
      simp only [Option.some.injEq] at h
      have ha : k = a := by simpa using hk
      subst ha
      subst h
      simp
    | false =>
      rw [hk] at h
      exact List.mem_cons_of_mem _ (ih h)

theorem lookup_map_set (k k' : String) (v : ℚ) :
    ∀ (m : List (String × ℚ)),
      List.lookup k (m.map (fun p => if p.1 == k' then (p.1, v) else p)) =
        if k = k' then (if m.any (fun p => p.1 == k') then some v else none)
        else List.lookup k m := by
  intro m
  induction m with
  | nil =>
    by_cases h : k = k'
    · simp [List.lookup, h]
    · have hb : (k == k') = false := by simp [h]
      simp [List.lookup, h, hb]
  | cons p t ih =>
    obtain ⟨a, b⟩ := p
    simp only [List.map_cons, List.any_cons]
    by_cases hak : a = k'
    · subst hak
      by_cases hka : k = a
      · subst hka
        simp [List.lookup_cons]
      · have hka' : (k == a) = false := by simp [hka]
        simp only [beq_iff_eq] at ih
        simp [List.lookup_cons, hka', ih, hka]
    · have hak' : (a == k') = false := by simp [hak]
      by_cases hka : k = a
      · subst hka
        have hkk' : (k == k') = false := by simp [hak]
        simp [List.lookup_cons, hak', hkk', hak]
      · have hka' : (k == a) = false := by simp [hka]
        simp only [beq_iff_eq] at ih
        simp only [hak', Bool.false_or]
        simp [List.lookup_cons, hka', ih, hak]

theorem lookup_append_single (k k' : String) (v : ℚ) :
    ∀ (m : List (String × ℚ)),
      List.lookup k (m ++ [(k', v)]) =
        match List.lookup k m with
        | some w => some w
        | none => if k = k' then some v else none := by
  intro m
  induction m with
  | nil =>
    by_cases h : k = k'
    · have hb : (k == k') = true := by simp [h]
      simp [List.lookup, List.lookup_cons, hb, h]
    · have hb : (k == k') = false := by simp [h]
      simp [List.lookup, List.lookup_cons, hb, h]
  | cons p t ih =>
    obtain ⟨a, b⟩ := p
    rw [List.cons_append, List.lookup_cons, List.lookup_cons]
    cases hk : k == a with
    | true => simp
    | false => simp [ih]

theorem any_key_of_lookup {m : List (String × ℚ)} {k : String} {v : ℚ}
    (h : List.lookup k m = some v) : m.any (fun p => p.1 == k) = true := by
  have := lookup_eq_some_mem h
  rw [List.any_eq_true]
  exact ⟨(k, v), this, by simp⟩

theorem lookup_objInsert (m : List (String × ℚ)) (k k' : String) (v : ℚ) :
    List.lookup k (objInsert m k' v) = if k = k' then some v else List.lookup k m := by
  unfold objInsert
  cases ha : m.any (fun p => p.1 == k') with
  | true =>
    rw [if_pos rfl, lookup_map_set, ha]
    by_cases hkk : k = k' <;> simp [hkk]
  | false =>
    rw [if_neg (by simp), lookup_append_single]
    by_cases hkk : k = k'
    · subst hkk
      cases hl : List.lookup k m with
      | some w => exact absurd (any_key_of_lookup hl) (by simp [ha])
      | none => simp
    · cases hl : List.lookup k m with
      | some w => simp [hkk]
      | none => simp [hkk]

theorem lookup_objAssign (t : List (String × ℚ)) :
    ∀ (s : List (String × ℚ)), (s.map Prod.fst).Nodup → ∀ k,
      List.lookup k (objAssign t s) =
        match List.lookup k s with
        | some v => some v
        | none => List.lookup k t := by
  suffices h : ∀ (s t : List (String × ℚ)), (s.map Prod.fst).Nodup → ∀ k,
      List.lookup k (objAssign t s) =
        match List.lookup k s with
        | some v => some v
        | none => List.lookup k t by
    intro s hs k; exact h s t hs k
  intro s
  induction s with
  | nil => intro t _ k; simp [objAssign, List.lookup]
  | cons p rest ih =>
    intro t hnd k
    simp only [List.map_cons, List.nodup_cons] at hnd
    have step : objAssign t (p :: rest) = objAssign (objInsert t p.1 p.2) rest := rfl
    rw [step, ih (objInsert t p.1 p.2) hnd.2 k]
    rw [show p = (p.1, p.2) from rfl, List.lookup_cons]
    cases hk : k == p.1 with
    | true =>
      have hkk : k = p.1 := by simpa using hk
      cases hr : List.lookup k rest with
      | some w =>
        exfalso
        have hmem := lookup_eq_some_mem hr
        exact hnd.1 (hkk ▸ (List.mem_map.mpr ⟨(k, w), hmem, rfl⟩))
      | none => simp [lookup_objInsert, hkk]
    | false =>
      have hkk : ¬ k = p.1 := by simpa using hk
      cases hr : List.lookup k rest with
      | some w => simp
      | none => simp [lookup_objInsert, hkk]

theorem lookup_objAssign_isSome (s : List (String × ℚ)) :
    ∀ (t : List (String × ℚ)) (k : String), (List.lookup k t).isSome = true →
      (List.lookup k (objAssign t s)).isSome = true := by
  induction s with
  | nil => intro t k h; exact h
  | cons p rest ih =>
    intro t k h
    have step : objAssign t (p :: rest) = objAssign (objInsert t p.1 p.2) rest := rfl
    rw [step]
    apply ih
    rw [lookup_objInsert]
    by_cases hkk : k = p.1 <;> simp [hkk] at h ⊢
    exact h

theorem mem_objInsert {m : List (String × ℚ)} {k : String} {v : ℚ} {p : String × ℚ}
    (h : p ∈ objInsert m k v) : p ∈ m ∨ p.2 = v := by
  unfold objInsert at h
  cases ha : m.any (fun q => q.1 == k) with
  | true =>
    rw [ha, if_pos rfl] at h
    simp only [List.mem_map] at h
    obtain ⟨q, hq, he⟩ := h
    by_cases hqk : q.1 = k
    · right
      rw [← he]
      simp [hqk]
    · left
      rw [← he]
      simp only [beq_iff_eq, if_neg hqk]
      exact hq
  | false =>
    rw [ha, if_neg (by simp)] at h
    rcases List.mem_append.mp h with hm | hm
    · exact Or.inl hm
    · right
      simp at hm
      rw [hm]

/-! ### Helper lemmas: competency keys of distinct source units differ -/

theorem append_underscore_inj {a : List Char} :
    ∀ {b r s : List Char}, '_' ∉ a → '_' ∉ b →
      a ++ '_' :: r = b ++ '_' :: s → a = b ∧ r = s := by
  induction a with
  | nil =>
    intro b r s _ hb h
    cases b with
    | nil => simpa using h
    | cons d bt =>
      exfalso
      simp only [List.nil_append, List.cons_append, List.cons.injEq] at h
      apply hb
      rw [h.1]
      exact List.mem_cons_self d bt
  | cons c at' ih =>
    intro b r s ha hb h
    cases b with
    | nil =>
      exfalso
      simp only [List.nil_append, List.cons_append, List.cons.injEq] at h
      apply ha
      rw [← h.1]
      exact List.mem_cons_self c at'
    | cons d bt =>
      simp only [List.cons_append, List.cons.injEq] at h
      have ha' : '_' ∉ at' := fun hm => ha (List.mem_cons_of_mem _ hm)
      have hb' : '_' ∉ bt := fun hm => hb (List.mem_cons_of_mem _ hm)
      obtain ⟨h1, h2⟩ := ih ha' hb' h.2
      exact ⟨by rw [h.1, h1], h2⟩

theorem string_eq_of_data {s t : String} (h : s.data = t.data) : s = t :=
  congrArg String.mk h

theorem cle_data (n m s : String) :
    (cle n m s).data = n.data ++ '_' :: (m.data ++ '_' :: s.data) := by
  simp [cle, String.data_append]

theorem cle_inj {n1 m1 s1 n2 m2 s2 : String}
    (hn1 : '_' ∉ n1.data) (hn2 : '_' ∉ n2.data)
    (hm1 : '_' ∉ m1.data) (hm2 : '_' ∉ m2.data)
    (h : cle n1 m1 s1 = cle n2 m2 s2) : n1 = n2 ∧ m1 = m2 ∧ s1 = s2 := by
  have hd : (cle n1 m1 s1).data = (cle n2 m2 s2).data := by rw [h]
  rw [cle_data, cle_data] at hd
  obtain ⟨h1, h2⟩ := append_underscore_inj hn1 hn2 hd
  obtain ⟨h3, h4⟩ := append_underscore_inj hm1 hm2 h2
  exact ⟨string_eq_of_data h1, string_eq_of_data h3, string_eq_of_data h4⟩

/-- Every value of the result object built by `ligneVersEcole`'s fold comes
from a successfully parsed cell of its row. -/
theorem mem_foldl_resultats (ligne : List String) (niveau matiere : String) :
    ∀ (cs : List Competence) (acc : List (String × ℚ)) (p : String × ℚ),
      p ∈ cs.foldl (fun resultats comp =>
        match parsePourcentage (ligne.get? comp.colonne) with
        | some pct =>
          objInsert resultats (cle niveau matiere (normaliserNomCompetence comp.nom)) pct
        | none => resultats) acc →
      p ∈ acc ∨ ∃ c ∈ cs, parsePourcentage (ligne.get? c.colonne) = some p.2 := by
  intro cs
  induction cs with
  | nil => intro acc p h; exact Or.inl h
  | cons c t ih =>
    intro acc p h
    simp only [List.foldl_cons] at h
    rcases ih _ p h with hacc | ⟨c', hc', hv⟩
    · cases hpc : parsePourcentage (ligne.get? c.colonne) with
      | some pct =>
        rw [hpc] at hacc
        rcases mem_objInsert hacc with hm | hm
        · exact Or.inl hm
        · exact Or.inr ⟨c, List.mem_cons_self c t, by rw [hpc, hm]⟩
      | none =>
        rw [hpc] at hacc
        exact Or.inl hacc
    · exact Or.inr ⟨c', List.mem_cons_of_mem _ hc', hv⟩

/-! ### The claims -/

/-- C1: on the 12-row grid whose identity row reads "Evaluation CM2FR",
whose title row (index 2) holds "Lecture de mots (10 points)" at column 2
spanning columns 2-5, whose row 6 holds "Groupe satisfaisant" at column 4,
whose row 7 holds "%" at column 5 and whose row 11 is
["0070116N", "Ecole Test", "12", "3", "5,5", "62,5"], the extraction yields
exactly one school record with id "0070116N" and the single resultsMap
entry (CM2, francais, "Lecture_de_mots_10_points") ↦ 62.5. -/
theorem c1_extraction_end_to_end :
    chargerFichierCSV grilleC1 "CM2" "francais" =
      [⟨"0070116N", "Ecole Test",
        [("CM2_francais_Lecture_de_mots_10_points", (62.5 : ℚ))]⟩] := by
  rw [show (62.5 : ℚ) = mkRat 625 10 from by rw [Rat.mkRat_eq_div]; norm_num]
  decide

/-- C5: `parsePourcentage` maps "50%", "50,5 %", "0.5", "105", "" and null
to 50, 50.5, 50, 105, null and null; in general, whenever the normalized
string (trim, drop one "%", comma to point) parses as a number `v`, the
result is `v * 100` when `0 < v < 1` and `v` otherwise, and whenever it
does not parse the result is null; the function is total. -/
theorem c5_parsePourcentage_spec :
    parsePourcentage (some "50%") = some (50 : ℚ) ∧
    parsePourcentage (some "50,5 %") = some (50.5 : ℚ) ∧
    parsePourcentage (some "0.5") = some (50 : ℚ) ∧
    parsePourcentage (some "105") = some (105 : ℚ) ∧
    parsePourcentage (some "") = none ∧
    parsePourcentage none = none ∧
    (∀ s : String, s ≠ "" →
      (∀ v : ℚ,
        parseFloatQ (replaceFirst (jsTrim (replaceFirst (jsTrim s) "%" "")) "," ".") = some v →
        parsePourcentage (some s) = some (if 0 < v ∧ v < 1 then v * 100 else v)) ∧
      (parseFloatQ (replaceFirst (jsTrim (replaceFirst (jsTrim s) "%" "")) "," ".") = none →
        parsePourcentage (some s) = none)) := by
  refine ⟨?_, ?_, ?_, ?_, rfl, rfl, ?_⟩
  · rw [show (50 : ℚ) = mkRat 50 1 from by rw [Rat.mkRat_eq_div]; norm_num]
    decide
  · rw [show (50.5 : ℚ) = mkRat 505 10 from by rw [Rat.mkRat_eq_div]; norm_num]
    decide
  · have h : parsePourcentage (some "0.5") = some (mkRat 5 10 * 100) := rfl
    rw [h, show mkRat 5 10 * 100 = (50 : ℚ) from by rw [Rat.mkRat_eq_div]; norm_num]
  · rw [show (105 : ℚ) = mkRat 105 1 from by rw [Rat.mkRat_eq_div]; norm_num]
    decide
  · intro s hs
    constructor
    · intro v hv
      simp only [parsePourcentage, if_neg hs, hv]
      split <;> rfl
    · intro hn
      simp only [parsePourcentage, if_neg hs, hn]

/-- C5 witness: the general clauses applied at the concrete non-numeric
input "abc". -/
theorem c5_witness : parsePourcentage (some "abc") = none :=
  (c5_parsePourcentage_spec.2.2.2.2.2.2 "abc" (by decide)).2 (by decide)

/-- C6: a CSV source unit is rejected in full (zero records, registry left
unchanged) when the identity validation fails, when no group row is found,
when no percentage row is found after the group row, or when zero
competency spans are resolved. -/
theorem c6_unit_rejection (lignes : List (List String)) (niveau matiere : String)
    (h : validerIdentification (lignes.getD 0 []) niveau matiere = false ∨
      trouverLigneGroupes lignes = none ∨
      (∃ lg, trouverLigneGroupes lignes = some lg ∧
        trouverLignePourcentages lignes lg = none) ∨
      (∃ lg lp, trouverLigneGroupes lignes = some lg ∧
        trouverLignePourcentages lignes lg = some lp ∧
        extraireCompetences (lignes.getD 2 []) (lignes.getD lg [])
          (lignes.getD lp []) = [])) :
    chargerFichierCSV lignes niveau matiere = [] ∧
    ∀ ecolesMap, fusionnerFichier ecolesMap (chargerFichierCSV lignes niveau matiere) =
      ecolesMap := by
  have hempty : chargerFichierCSV lignes niveau matiere = [] := by
    unfold chargerFichierCSV
    rcases h with h | h | ⟨lg, h1, h2⟩ | ⟨lg, lp, h1, h2, h3⟩
    · rw [if_neg fun hc => by rw [h] at hc; exact Bool.noConfusion hc]
    · split
      · simp only [h]
      · rfl
    · split
      · simp only [h1, h2]
      · rfl
    · split
      · simp only [h1, h2, h3, List.isEmpty_nil]
        rw [if_pos trivial]
      · rfl
  exact ⟨hempty, fun ecolesMap => by rw [hempty]; rfl⟩

/-- C6 witness: a unit whose first row lacks the identity token is
rejected. -/
theorem c6_witness :
    chargerFichierCSV [["Bonjour"]] "CP" "francais" = [] ∧
    ∀ ecolesMap,
      fusionnerFichier ecolesMap (chargerFichierCSV [["Bonjour"]] "CP" "francais") =
        ecolesMap :=
  c6_unit_rejection [["Bonjour"]] "CP" "francais" (Or.inl (by decide))

/-- C8: `trouverPremiereEcole` returns the smallest row index after the
percentage row whose row passes `estLigneEcole` (trimmed column 0 of length
at least 7 without the "uai"/"total"/"circonscription" keywords, non-empty
column 1); when no row qualifies it returns the fixed default 10; hence its
result is the default or has an identifier of length at least 7. -/
theorem c8_trouverPremiereEcole_spec (lignes : List (List String)) (lp : ℕ) :
    (∀ i, lp < i → i < lignes.length → estLigneEcole (lignes.getD i []) = true →
      (∀ j, lp < j → j < i → estLigneEcole (lignes.getD j []) = false) →
      trouverPremiereEcole lignes lp = i) ∧
    ((∀ j, lp < j → j < lignes.length → estLigneEcole (lignes.getD j []) = false) →
      trouverPremiereEcole lignes lp = 10) ∧
    (trouverPremiereEcole lignes lp = 10 ∨
      7 ≤ (jsTrim ((lignes.getD (trouverPremiereEcole lignes lp) []).getD 0 "")).length) := by
  refine ⟨?_, ?_, ?_⟩
  · intro i h1 h2 h3 h4
    unfold trouverPremiereEcole
    rw [find?_range'_least (by omega) (by omega) h3 (fun j hj1 hj2 => h4 j (by omega) hj2)]
  · intro h
    unfold trouverPremiereEcole
    rw [find?_range'_none (fun j hj1 hj2 => h j (by omega) (by omega))]
  · unfold trouverPremiereEcole
    cases hf : (List.range' (lp + 1) (lignes.length - (lp + 1))).find?
        (fun i => estLigneEcole (lignes.getD i [])) with
    | none => exact Or.inl rfl
    | some i =>
      right
      obtain ⟨_, _, hp, _⟩ := find?_range'_some hf
      simp only [estLigneEcole, Bool.and_eq_true, decide_eq_true_eq] at hp
      exact hp.2

/-- C8 witness: on a concrete grid the first qualifying row (index 1) is
returned. -/
theorem c8_witness :
    trouverPremiereEcole [[], ["1234567X", "Ecole du Parc"]] 0 = 1 :=
  (c8_trouverPremiereEcole_spec [[], ["1234567X", "Ecole du Parc"]] 0).1 1
    (by omega) (by decide) (by decide) (fun j hj1 hj2 => by omega)

/-- C2 counterexample: a CSV span over the single column 2, with
"satisfaisant" in its group row but no percentage marker, resolves to
column 3, outside the span: the resolved offset exceeds the span width. -/
theorem c2_counterexample :
    finaliserCompetence "Comparer des nombres" 2 2
      ["", "", "Groupe satisfaisant"] ["", "", ""] =
      some ⟨"Comparer des nombres", 3⟩ ∧ ¬((3 : ℕ) - 2 ≤ 2 - 2) :=
  ⟨by decide, by decide⟩

/-- C2 (amended): in both resolution modes the resolved percentage column
is at least the span start and at most the span end plus one; the claimed
upper bound `columnEnd` itself can be exceeded by exactly one (CSV default
column after a final-column "satisfaisant" cell, workbook "nombre" cell in
the final column). -/
theorem c2_resolved_column_bounds :
    (∀ (nom : String) (colDebut colFin : ℕ) (lg lp : List String) (c : Competence),
      finaliserCompetence nom colDebut colFin lg lp = some c →
      colDebut ≤ c.colonne ∧ c.colonne ≤ colFin + 1) ∧
    (∀ (sh : SheetM) (sp : Span), sp.colDebut ≤ sp.colFin →
      sp.colDebut ≤ resoudreSpan sh sp ∧ resoudreSpan sh sp ≤ sp.colFin + 1) := by
  constructor
  · intro nom colDebut colFin lg lp c h
    cases hs : chercheSatisfaisant lg colDebut colFin with
    | none =>
      unfold finaliserCompetence at h
      simp only [hs] at h
      exact Option.noConfusion h
    | some colSat =>
      unfold finaliserCompetence at h
      simp only [hs] at h
      have hs' := hs
      unfold chercheSatisfaisant at hs'
      obtain ⟨hs1, hs2, -, -⟩ := find?_range'_some hs'
      cases hp : cherchePourcentage lp colSat colFin with
      | some colPct =>
        simp only [hp, Option.some.injEq] at h
        subst h
        have hp' := hp
        unfold cherchePourcentage at hp'
        obtain ⟨hp1, hp2, -, -⟩ := find?_range'_some hp'
        exact ⟨by dsimp only; omega, by dsimp only; omega⟩
      | none =>
        simp only [hp, Option.some.injEq] at h
        subst h
        exact ⟨by dsimp only; omega, by dsimp only; omega⟩
  · intro sh sp hle
    cases ho : chercheOffsetPourcentage sh sp with
    | none =>
      unfold resoudreSpan
      simp only [ho]
      omega
    | some off =>
      have hoff : off ≤ sp.colFin + 1 - sp.colDebut := by
        unfold chercheOffsetPourcentage at ho
        obtain ⟨col, hcol, hinner⟩ := List.exists_of_findSome?_eq_some ho
        rw [List.mem_range'_1] at hcol
        obtain ⟨row, -, hcell⟩ := List.exists_of_findSome?_eq_some hinner
        simp only [] at hcell
        split at hcell
        · split at hcell
          · simp only [Option.some.injEq] at hcell
            omega
          · split at hcell
            · simp only [Option.some.injEq] at hcell
              omega
            · exact absurd hcell (by simp)
        · exact absurd hcell (by simp)
      unfold resoudreSpan
      simp only [ho]
      omega

/-- C2 witness: the two bound statements applied at concrete inputs: a CSV
span `[1, 4]` resolving to column 2, and a workbook span `[2, 5]` of an
empty sheet resolving through the heuristic default. -/
theorem c2_witness :
    (1 ≤ (Competence.mk "Lecture de mots (10 points)" 2).colonne ∧
      (Competence.mk "Lecture de mots (10 points)" 2).colonne ≤ 4 + 1) ∧
    (2 ≤ resoudreSpan ⟨fun _ _ => "", []⟩ ⟨"Lecture de phrases", 2, 5⟩ ∧
      resoudreSpan ⟨fun _ _ => "", []⟩ ⟨"Lecture de phrases", 2, 5⟩ ≤ 5 + 1) :=
  ⟨c2_resolved_column_bounds.1 "Lecture de mots (10 points)" 1 4
      ["", "Groupe satisfaisant", "", "", ""] ["", "", "%", "", ""]
      ⟨"Lecture de mots (10 points)", 2⟩ (by decide),
   c2_resolved_column_bounds.2 ⟨fun _ _ => "", []⟩ ⟨"Lecture de phrases", 2, 5⟩ (by decide)⟩

/-- C3 counterexample: in the CSV mode, a span `[2, 5]` whose group row
holds "satisfaisant" at column 2 but whose percentage row has no marker
resolves to column 3 (the column after the "satisfaisant" cell), not to the
span's last column 5 claimed as the substituted default. -/
theorem c3_counterexample :
    finaliserCompetence "Lecture de phrases (5 points)" 2 5
      ["", "", "Groupe satisfaisant", "", "", ""] ["", "", "", "", "", ""] =
      some ⟨"Lecture de phrases (5 points)", 3⟩ ∧ (3 : ℕ) ≠ 5 :=
  ⟨by decide, by decide⟩

/-- C3 (amended): when the keyword search fails, the two modes use
different defaults and only the workbook mode still produces the
competency with `columnEnd`: the workbook resolver substitutes the span's
last column (offset `largeur - 1`); the CSV resolver substitutes the column
directly after the found "satisfaisant" cell when only the percentage
search fails, and produces no competency at all when even "satisfaisant" is
absent from the span. -/
theorem c3_default_resolution :
    (∀ (sh : SheetM) (sp : Span), sp.colDebut ≤ sp.colFin →
      chercheOffsetPourcentage sh sp = none → resoudreSpan sh sp = sp.colFin) ∧
    (∀ (nom : String) (colDebut colFin : ℕ) (lg lp : List String) (colSat : ℕ),
      chercheSatisfaisant lg colDebut colFin = some colSat →
      cherchePourcentage lp colSat colFin = none →
      finaliserCompetence nom colDebut colFin lg lp = some ⟨nom, colSat + 1⟩) ∧
    (∀ (nom : String) (colDebut colFin : ℕ) (lg lp : List String),
      chercheSatisfaisant lg colDebut colFin = none →
      finaliserCompetence nom colDebut colFin lg lp = none) := by
  refine ⟨?_, ?_, ?_⟩
  · intro sh sp hle hn
    unfold resoudreSpan
    simp only [hn]
    omega
  · intro nom colDebut colFin lg lp colSat h1 h2
    unfold finaliserCompetence
    simp only [h1, h2]
  · intro nom colDebut colFin lg lp h
    unfold finaliserCompetence
    simp only [h]

/-- C3 witness: the three default behaviours at concrete inputs: a span of
an empty sheet defaulting to its last column, a CSV span defaulting to the
column after "satisfaisant", and a CSV span without "satisfaisant" dropped
entirely. -/
theorem c3_witness :
    resoudreSpan ⟨fun _ _ => "", []⟩ ⟨"Ecrire des syllabes simples", 1, 3⟩ = 3 ∧
    finaliserCompetence "Resoudre un probleme en une etape" 0 2
      ["Groupe satisfaisant", "", ""] ["", "", ""] =
      some ⟨"Resoudre un probleme en une etape", 1⟩ ∧
    finaliserCompetence "Resoudre un probleme en une etape" 0 2
      ["", "", ""] ["%", "%", "%"] = none :=
  ⟨c3_default_resolution.1 ⟨fun _ _ => "", []⟩ ⟨"Ecrire des syllabes simples", 1, 3⟩
      (by decide) (by decide),
   c3_default_resolution.2.1 "Resoudre un probleme en une etape" 0 2
      ["Groupe satisfaisant", "", ""] ["", "", ""] 0 (by decide) (by decide),
   c3_default_resolution.2.2 "Resoudre un probleme en une etape" 0 2
      ["", "", ""] ["%", "%", "%"] (by decide)⟩

/-- C4: on a data row whose identifier passes the exclusion filter but none
of whose competency cells parses to a number, the two services diverge: the
CSV service produces no record for the row, but the workbook service
(`loadEcoles` of oraceService) creates a fresh record with an empty results
object before extracting any value — the phantom record the specification
forbids. -/
theorem c4_phantom_record_eval :
    processRowODS [] ["1234567X", "Ecole Test", "nd"]
      [⟨"Comparer des nombres entiers", 2⟩] "CP" "francais" =
      [⟨"1234567X", "Ecole Test", []⟩] ∧
    ligneVersEcole ["1234567X", "Ecole Test", "nd"]
      [⟨"Comparer des nombres entiers", 2⟩] "CP" "francais" = none :=
  ⟨by decide, by decide⟩

/-- C9 counterexample: a cell reading "105" is stored as the percentage
105, outside the claimed interval [0, 100]: the extraction performs no
clamping. -/
theorem c9_counterexample :
    extraireEcoles [["2345678Y", "Ecole B", "105"]]
      [⟨"Resoudre des problemes en deux etapes", 2⟩] "CP" "maths" =
      [⟨"2345678Y", "Ecole B",
        [("CP_maths_Resoudre_des_problemes_en_deux_etapes", mkRat 105 1)]⟩] ∧
    ¬((0 : ℚ) ≤ mkRat 105 1 ∧ (mkRat 105 1 : ℚ) ≤ 100) :=
  ⟨by decide, by decide⟩

/-- C9 (amended): every percentage stored by `extraireEcoles` is the
`parsePourcentage` image of a cell of its row; hence on any grid whose
parseable competency cells all normalize into [0, 100] every stored value
lies in [0, 100] — but the code does not clamp, so out-of-range source
values are stored unchanged. -/
theorem c9_range_conditional (lignesEcoles : List (List String))
    (competences : List Competence) (niveau matiere : String)
    (h : ∀ ligne ∈ lignesEcoles, ∀ comp ∈ competences, ∀ v : ℚ,
      parsePourcentage (ligne.get? comp.colonne) = some v → 0 ≤ v ∧ v ≤ 100) :
    ∀ e ∈ extraireEcoles lignesEcoles competences niveau matiere,
      ∀ p ∈ e.resultats, 0 ≤ p.2 ∧ p.2 ≤ 100 := by
  intro e he p hp
  unfold extraireEcoles at he
  rw [List.mem_filterMap] at he
  obtain ⟨ligne, hligne, hle⟩ := he
  simp only [ligneVersEcole] at hle
  split at hle
  · exact absurd hle (by simp)
  · split at hle
    · exact absurd hle (by simp)
    · simp only [Option.some.injEq] at hle
      subst hle
      rcases mem_foldl_resultats ligne niveau matiere competences [] p hp with hmem | ⟨c, hc, hv⟩
      · exact absurd hmem (List.not_mem_nil p)
      · exact h ligne hligne c hc p.2 hv

/-- C9 witness: the conditional range invariant applied to a concrete
one-row grid whose single cell parses to 50, at the one extracted record
and its one stored entry. -/
theorem c9_witness :
    (0 : ℚ) ≤ mkRat 50 1 ∧ (mkRat 50 1 : ℚ) ≤ 100 := by
  refine c9_range_conditional [["3456789Z", "Ecole C", "50"]]
    [⟨"Lire un texte a haute voix", 2⟩] "CE1" "francais" ?_
    ⟨"3456789Z", "Ecole C", [("CE1_francais_Lire_un_texte_a_haute_voix", mkRat 50 1)]⟩
    (by decide)
    ("CE1_francais_Lire_un_texte_a_haute_voix", mkRat 50 1)
    (by decide)
  intro ligne hligne comp hcomp v hv
  simp only [List.mem_singleton] at hligne hcomp
  subst hligne
  subst hcomp
  rw [show parsePourcentage ((["3456789Z", "Ecole C", "50"] : List String).get? 2) =
      some (mkRat 50 1) from by decide] at hv
  simp only [Option.some.injEq] at hv
  subst hv
  exact ⟨by decide, by decide⟩

/-- Mapping a record transformer that keeps `uai` and `nom` does not change
the projection of the registry to (id, display name) pairs. -/
theorem map_proj_of_preserves {l : List Ecole} {f : Ecole → Ecole}
    (h : ∀ x, (f x).uai = x.uai ∧ (f x).nom = x.nom) :
    (l.map f).map (fun x => (x.uai, x.nom)) = l.map (fun x => (x.uai, x.nom)) := by
  induction l with
  | nil => rfl
  | cons a t ih => simp [ih, (h a).1, (h a).2]

/-- C7: two partial records from distinct (level, subject) source units
with the same school id merge into a single registry record whose
resultsMap is exactly the union of the two units' entries (the key prefixes
of distinct units cannot collide), and `Object.assign` merging never
removes a key that was present. -/
theorem c7_registry_union (n1 m1 n2 m2 uai nom1 nom2 : String)
    (res1 res2 : List (String × ℚ))
    (hne : (n1, m1) ≠ (n2, m2))
    (hu1 : '_' ∉ n1.data) (hu2 : '_' ∉ n2.data)
    (hv1 : '_' ∉ m1.data) (hv2 : '_' ∉ m2.data)
    (hk1 : ∀ p ∈ res1, ∃ s, p.1 = cle n1 m1 s)
    (hk2 : ∀ p ∈ res2, ∃ s, p.1 = cle n2 m2 s)
    (hd1 : (res1.map Prod.fst).Nodup) (hd2 : (res2.map Prod.fst).Nodup) :
    (∃ e : Ecole,
      fusionnerFichier (fusionnerFichier [] [⟨uai, nom1, res1⟩]) [⟨uai, nom2, res2⟩] = [e] ∧
      e.uai = uai ∧
      (∀ k v, List.lookup k e.resultats = some v ↔
        (List.lookup k res1 = some v ∨ List.lookup k res2 = some v))) ∧
    (∀ (t s : List (String × ℚ)) (k : String),
      (List.lookup k t).isSome = true → (List.lookup k (objAssign t s)).isSome = true) := by
  constructor
  · refine ⟨⟨uai, nom1, objAssign (objAssign [] res1) res2⟩, ?_, rfl, ?_⟩
    · show fusionnerEcole (fusionnerEcole [] ⟨uai, nom1, res1⟩) ⟨uai, nom2, res2⟩ = _
      simp [fusionnerEcole]
    · intro k v
      have hdisj : ∀ v1 v2 : ℚ,
          List.lookup k res1 = some v1 → List.lookup k res2 = some v2 → False := by
        intro v1 v2 h1 h2
        obtain ⟨s1, hs1⟩ := hk1 _ (lookup_eq_some_mem h1)
        obtain ⟨s2, hs2⟩ := hk2 _ (lookup_eq_some_mem h2)
        have hcle : cle n1 m1 s1 = cle n2 m2 s2 := by
          rw [← hs1, ← hs2]
        obtain ⟨he1, he2, -⟩ := cle_inj hu1 hu2 hv1 hv2 hcle
        exact hne (by rw [he1, he2])
      rw [lookup_objAssign _ res2 hd2 k, lookup_objAssign _ res1 hd1 k]
      cases h2 : List.lookup k res2 with
      | some w =>
        cases h1 : List.lookup k res1 with
        | some w1 => exact absurd (hdisj w1 w h1 h2) (fun hf => hf)
        | none =>
          constructor
          · intro hv
            exact Or.inr hv
          · rintro (hv | hv)
            · exact Option.noConfusion hv
            · exact hv
      | none =>
        cases h1 : List.lookup k res1 with
        | some w1 =>
          constructor
          · intro hv
            exact Or.inl hv
          · rintro (hv | hv)
            · exact hv
            · exact Option.noConfusion hv
        | none =>
          constructor
          · intro hv
            simp [List.lookup] at hv
          · rintro (hv | hv) <;> exact Option.noConfusion hv
  · intro t s k h
    exact lookup_objAssign_isSome s t k h

/-- C7 witness: two concrete one-entry records of the units (CP, francais)
and (CE1, maths) for the same id merge into one record carrying both keys.
-/
theorem c7_witness :
    (∃ e : Ecole,
      fusionnerFichier
        (fusionnerFichier [] [⟨"0070116N", "Ecole Test", [("CP_francais_Lecture", (50 : ℚ))]⟩])
        [⟨"0070116N", "Ecole Test 2", [("CE1_maths_Calcul", (60 : ℚ))]⟩] = [e] ∧
      e.uai = "0070116N" ∧
      (∀ k v, List.lookup k e.resultats = some v ↔
        (List.lookup k [("CP_francais_Lecture", (50 : ℚ))] = some v ∨
         List.lookup k [("CE1_maths_Calcul", (60 : ℚ))] = some v))) ∧
    (∀ (t s : List (String × ℚ)) (k : String),
      (List.lookup k t).isSome = true → (List.lookup k (objAssign t s)).isSome = true) :=
  c7_registry_union "CP" "francais" "CE1" "maths" "0070116N" "Ecole Test" "Ecole Test 2"
    [("CP_francais_Lecture", 50)] [("CE1_maths_Calcul", 60)]
    (by decide) (by decide) (by decide) (by decide) (by decide)
    (by
      intro p hp
      simp only [List.mem_singleton] at hp
      subst hp
      exact ⟨"Lecture", by decide⟩)
    (by
      intro p hp
      simp only [List.mem_singleton] at hp
      subst hp
      exact ⟨"Calcul", by decide⟩)
    (by decide) (by decide)

/-- C10: when a partial record arrives for a school id that already exists
in the registry, only the stored record's resultsMap can change: the
registry's (id, display name) projection is unchanged in both services, so
the name captured by the first creating unit survives a later unit carrying
a different name, and records of other ids are untouched. -/
theorem c10_merge_preserves_identity :
    (∀ (ecolesMap : List Ecole) (ecole : Ecole),
      ecolesMap.any (fun x => x.uai == ecole.uai) = true →
      ((fusionnerEcole ecolesMap ecole).map (fun x => (x.uai, x.nom)) =
        ecolesMap.map (fun x => (x.uai, x.nom)) ∧
       ∀ x ∈ ecolesMap, x.uai ≠ ecole.uai → x ∈ fusionnerEcole ecolesMap ecole)) ∧
    (∀ (ecolesMap : List Ecole) (row : List String) (competences : List CompetenceODS)
        (niveau matiere : String),
      ecolesMap.any (fun x => x.uai == jsTrim (row.getD 0 "")) = true →
      ((processRowODS ecolesMap row competences niveau matiere).map (fun x => (x.uai, x.nom)) =
        ecolesMap.map (fun x => (x.uai, x.nom)) ∧
       ∀ x ∈ ecolesMap, x.uai ≠ jsTrim (row.getD 0 "") →
         x ∈ processRowODS ecolesMap row competences niveau matiere)) := by
  constructor
  · intro ecolesMap ecole hmem
    constructor
    · unfold fusionnerEcole
      rw [if_pos hmem]
      exact map_proj_of_preserves (by
        intro x
        by_cases hx : x.uai = ecole.uai
        · simp [hx]
        · simp [hx])
    · intro x hx hne
      unfold fusionnerEcole
      rw [if_pos hmem]
      refine List.mem_map.mpr ⟨x, hx, ?_⟩
      simp [hne]
  · intro ecolesMap row competences niveau matiere hmem
    by_cases hfil : (jsTrim (row.getD 0 "") == "" ||
        jsIncludes (jsLower (jsTrim (row.getD 0 ""))) "total" ||
        jsIncludes (jsLower (jsTrim (row.getD 0 ""))) "circonscription") = true
    · have heq : processRowODS ecolesMap row competences niveau matiere = ecolesMap := by
        unfold processRowODS
        dsimp only
        rw [if_pos hfil]
      rw [heq]
      exact ⟨rfl, fun x hx _ => hx⟩
    · constructor
      · unfold processRowODS
        dsimp only
        rw [if_neg hfil, if_pos hmem]
        exact map_proj_of_preserves (by
          intro x
          constructor <;> split <;> rfl)
      · intro x hx hne
        unfold processRowODS
        dsimp only
        rw [if_neg hfil, if_pos hmem]
        refine List.mem_map.mpr ⟨x, hx, ?_⟩
        have hb : (x.uai == jsTrim (row.getD 0 "")) = false := by
          simp only [beq_eq_false_iff_ne]
          exact hne
        simp only [hb]
        rw [if_neg (fun hc => Bool.noConfusion hc)]

/-- C10 witness: merging a record with a different display name for an
existing id leaves the (id, name) projection unchanged and keeps other ids'
records whole, in both services. -/
theorem c10_witness :
    ((fusionnerEcole [⟨"0070116N", "Ecole Test", []⟩] ⟨"0070116N", "Autre Nom", []⟩).map
        (fun x => (x.uai, x.nom)) =
      ([⟨"0070116N", "Ecole Test", []⟩] : List Ecole).map (fun x => (x.uai, x.nom)) ∧
      ∀ x ∈ [(⟨"0070116N", "Ecole Test", []⟩ : Ecole)], x.uai ≠ "0070116N" →
        x ∈ fusionnerEcole [⟨"0070116N", "Ecole Test", []⟩] ⟨"0070116N", "Autre Nom", []⟩) ∧
    ((processRowODS [⟨"0070116N", "Ecole Test", []⟩] ["0070116N", "Nom Nouveau"] [] "CP"
        "francais").map (fun x => (x.uai, x.nom)) =
      ([⟨"0070116N", "Ecole Test", []⟩] : List Ecole).map (fun x => (x.uai, x.nom)) ∧
      ∀ x ∈ [(⟨"0070116N", "Ecole Test", []⟩ : Ecole)],
        x.uai ≠ jsTrim ((["0070116N", "Nom Nouveau"] : List String).getD 0 "") →
          x ∈ processRowODS [⟨"0070116N", "Ecole Test", []⟩] ["0070116N", "Nom Nouveau"] []
            "CP" "francais") :=
  ⟨c10_merge_preserves_identity.1 [⟨"0070116N", "Ecole Test", []⟩]
      ⟨"0070116N", "Autre Nom", []⟩ (by decide),
   c10_merge_preserves_identity.2 [⟨"0070116N", "Ecole Test", []⟩]
      ["0070116N", "Nom Nouveau"] [] "CP" "francais" (by decide)⟩

end AnalyseEval
